import Mathlib

/-!
Verification of `distributions/validate-modern.py`.

The Python source is shallowly embedded below. Strings are manipulated
through their character lists so that every definition evaluates by kernel
reduction. Side-effecting `error`/`warning` calls are modelled as values of
type `Finding` returned in lists, in emission order. Python exceptions that
escape a function are modelled with `Except`. The Python `tarfile` library
is modelled after its CPython source: `getmember` strips trailing slashes
from the looked-up name and returns the last member whose stored name
matches exactly; `getnames` returns the stored member names.
-/

set_option autoImplicit false

namespace ValidateModern

/-- Python `s.startswith(pre)` on ASCII text. -/
def pyStartsWith (s pre : String) : Bool :=
  List.isPrefixOf pre.toList s.toList

/-- Python `s.endswith(suf)` on ASCII text. -/
def pyEndsWith (s suf : String) : Bool :=
  List.isSuffixOf suf.toList s.toList

/-- Python `s[n:]` (character based, which agrees with Python for ASCII). -/
def pyDrop (s : String) (n : Nat) : String :=
  String.mk (s.toList.drop n)

/-- Python `len(s)` for ASCII text. -/
def pyLen (s : String) : Nat :=
  s.toList.length

/-- Split a character list at every occurrence of `sep`, keeping empty
pieces, as Python `str.split` does with an explicit one-character
separator. -/
def splitOnChar (sep : Char) : List Char → List (List Char)
  | [] => [[]]
  | c :: cs =>
    match splitOnChar sep cs with
    | [] => [[c]]
    | g :: gs => if c = sep then [] :: g :: gs else (c :: g) :: gs

/-- Python `str.split` with an explicit one-character separator. -/
def pySplit (s : String) (sep : Char) : List String :=
  (splitOnChar sep s.toList).map String.mk

/-- Strip leading and trailing whitespace, as Python `str.strip()`. -/
def stripWS (cs : List Char) : List Char :=
  ((cs.dropWhile Char.isWhitespace).reverse.dropWhile Char.isWhitespace).reverse

/-- Python `str.rstrip` with the slash character. -/
def rstripSlash (s : String) : String :=
  String.mk ((s.toList.reverse.dropWhile (fun c => c = '/')).reverse)

/-- Python `oct(n)` for a nonnegative integer: `0o` followed by the octal
digits. -/
def oct (n : Nat) : String :=
  "0o" ++ String.mk (Nat.toDigits 8 n)

/-- Index of the last `/` in a character list, if any. -/
def lastSlashIdx (cs : List Char) : Option Nat :=
  (((cs.enum.filter (fun p => p.2 = '/')).map Prod.fst).getLast?)

/-- Python `os.path.dirname` (posixpath): everything up to the last slash,
with trailing slashes removed unless the head is all slashes. -/
def dirname (p : String) : String :=
  let cs := p.toList
  match lastSlashIdx cs with
  | none => ""
  | some idx =>
    let head := cs.take (idx + 1)
    if head.any (fun c => c ≠ '/') then
      String.mk ((head.reverse.dropWhile (fun c => c = '/')).reverse)
    else
      String.mk head

/-- Python `os.path.basename` (posixpath): everything after the last
slash. -/
def basename (p : String) : String :=
  let cs := p.toList
  match lastSlashIdx cs with
  | none => p
  | some idx => String.mk (cs.drop (idx + 1))

/-- Numeric value of a list of decimal digits. -/
def digitsVal (cs : List Char) : Nat :=
  cs.foldl (fun acc c => acc * 10 + (c.toNat - '0'.toNat)) 0

/-- Python `int(s)` on a string: strip whitespace, allow one optional sign,
then decimal digits; anything else raises `ValueError`, modelled as `none`.
(Underscore digit grouping is not modelled; no input here uses it.) -/
def pyInt (s : String) : Option Int :=
  let t := stripWS s.toList
  match t with
  | [] => none
  | c :: rest =>
    let signed : Bool × List Char :=
      if c = '-' then (true, rest) else if c = '+' then (false, rest) else (false, t)
    if signed.2 ≠ [] ∧ signed.2.all Char.isDigit then
      some (if signed.1 then -(digitsVal signed.2 : Int) else (digitsVal signed.2 : Int))
    else
      none

/-- Python `repr` of an `int` or `None`, as interpolated by f-strings. -/
def pyReprOptInt : Option Int → String
  | none => "None"
  | some n => toString n

/-- Python `repr` of a list of strings: brackets around comma-separated
single-quoted items. -/
def pyStrListRepr (ls : List String) : String :=
  "[" ++ String.intercalate ", " (ls.map (fun s => "\x27" ++ s ++ "\x27")) ++ "]"

/-- Python `repr` of a passwd field tuple (`None` or a list of strings). -/
def pyReprFields : Option (List String) → String
  | none => "None"
  | some fs => pyStrListRepr fs

/-- Severity of a reported finding: `error` rejects the manifest, `warning`
is advisory. -/
inductive Severity
  | error
  | warning
deriving DecidableEq

/-- One emitted finding: severity, distribution family, distribution name
(absent for family-level findings) and message, as printed by the `error`
and `warning` helpers of the source. -/
structure Finding where
  severity : Severity
  flavor : String
  distribution : Option String
  message : String
deriving DecidableEq

/-- One member of the tar archive, as exposed by `tarfile.TarInfo`. The
`file_magic` field records what `magic.Magic().from_buffer` reports for the
first 256 bytes of the member content. -/
structure TarInfo where
  name : String
  mode : Nat
  uid : Nat
  gid : Nat
  size : Nat
  issym : Bool
  linkpath : String
  content : String
  file_magic : String
deriving DecidableEq

/-- A tar archive: its members in archive order. -/
abbrev Tar : Type := List TarInfo

/-- `tarfile.TarFile.getmember`: strips trailing slashes from the looked-up
name, then returns the last member whose stored name matches exactly;
`none` models the `KeyError`. -/
def getmember (tar : Tar) (nm : String) : Option TarInfo :=
  List.find? (fun i => i.name = rstripSlash nm) tar.reverse

/-- `tarfile.TarFile.getnames`. -/
def getnames (tar : Tar) : List String :=
  tar.map (fun i => i.name)

/-- `tarfile.TarFile.extractfile` on a member name: looks the name up via
`getmember` and yields the member byte content (decoded as text here);
`none` models the `KeyError`. Symlink members are simplified to yield their
own stored content, which no theorem below relies on. -/
def extractfile (tar : Tar) (nm : String) : Option String :=
  (getmember tar nm).map (fun i => i.content)

/-- The literal-then-dot-prefixed lookup that `validate_mode` (source lines
200-206) and `link_target` (source lines 163-165) both perform before
declaring a path absent. -/
def resolveMember (tar : Tar) (p : String) : Option TarInfo :=
  match getmember tar p with
  | some i => some i
  | none => getmember tar ("." ++ p)

/-- Whether an association list holds a key, as Python `k in dict`. -/
def assocHas {α β : Type} [DecidableEq α] (d : List (α × β)) (k : α) : Bool :=
  d.any (fun kv => kv.1 = k)

/-- Value stored under a key, as Python `dict[k]` / `dict.get(k)`. -/
def assocGet {α β : Type} [DecidableEq α] (d : List (α × β)) (k : α) : Option β :=
  (d.find? (fun kv => kv.1 = k)).map (fun kv => kv.2)

/-- Python `dict[k] = v`: replace in place when the key exists, else append
(Python dicts preserve insertion order). -/
def assocInsert {α β : Type} [DecidableEq α] (d : List (α × β)) (k : α) (v : β) : List (α × β) :=
  if assocHas d k then d.map (fun kv => if kv.1 = k then (k, v) else kv)
  else d ++ [(k, v)]

/-- A parsed INI file as `configparser` exposes it: sections in file order,
each with its options. -/
abbrev IniData : Type := List (String × List (String × String))

/-- Append a section if it is not present yet. -/
def ensureSection (d : IniData) (sec : String) : IniData :=
  if assocHas d sec then d else d ++ [(sec, [])]

/-- Store `key = val` inside section `sec`. -/
def addIniKey (d : IniData) (sec key val : String) : IniData :=
  d.map (fun s => if s.1 = sec then (s.1, assocInsert s.2 key val) else s)

/-- Break a line at its first `=` or `:` delimiter. -/
def breakAtDelim : List Char → Option (List Char × List Char)
  | [] => none
  | c :: cs =>
    if c = '=' ∨ c = ':' then some ([], cs)
    else (breakAtDelim cs).map (fun p => (c :: p.1, p.2))

/-- Process one line of an INI file. -/
def parseIniLine (acc : IniData × Option String) (lineCs : List Char) : IniData × Option String :=
  let t := stripWS lineCs
  match t with
  | [] => acc
  | c :: rest =>
    if c = '#' ∨ c = ';' then acc
    else if c = '[' then
      let inner := rest.takeWhile (fun d => d ≠ ']')
      if rest.any (fun d => d = ']') ∧ inner ≠ [] then
        (ensureSection acc.1 (String.mk inner), some (String.mk inner))
      else acc
    else
      match breakAtDelim t with
      | none => acc
      | some kv =>
        match acc.2 with
        | none => acc
        | some sec =>
          let key := String.mk ((stripWS kv.1).map Char.toLower)
          let val := String.mk (stripWS kv.2)
          (addIniKey acc.1 sec key val, acc.2)

/-- Models `configparser.ConfigParser.read_string` for the INI subset
exercised by the source: `[section]` headers, `key = value` or `key: value`
options with option names lowercased, `#`/`;` comment lines, blank lines
skipped, later duplicate keys in a section overriding earlier ones.
Continuation lines, interpolation and malformed-line exceptions are not
modelled; no theorem below feeds such input. -/
def configparser_read_string (s : String) : IniData :=
  ((splitOnChar '\n' s.toList).foldl parseIniLine ([], none)).1

/-- `read_config_keys` (source lines 113-120): flatten a parsed config into
a `section.key` dictionary. -/
def read_config_keys (config : IniData) : List (String × String) :=
  config.foldl
    (fun keys sec =>
      sec.2.foldl (fun ks kv => assocInsert ks (sec.1 ++ "." ++ kv.1) kv.2) keys)
    []

/-- Message of the mode-mismatch warning (source line 229). -/
def mode_msg (path perm : String) (mode : List String) : String :=
  "file: \"" ++ path ++ "\" has unexpected mode: " ++ perm ++ " (expected: " ++ pyStrListRepr mode ++ ")"

/-- Message of the uid-mismatch warning (source line 232). -/
def uid_msg (path : String) (actual expected : Nat) : String :=
  "file: \"" ++ path ++ "\" has unexpected uid: " ++ toString actual ++ " (expected: " ++ toString expected ++ ")"

/-- Message of the gid-mismatch warning (source line 235). -/
def gid_msg (path : String) (actual expected : Nat) : String :=
  "file: \"" ++ path ++ "\" has unexpected gid: " ++ toString actual ++ " (expected: " ++ toString expected ++ ")"

/-- Message of the size error (source line 238); the f-string of the source has
`(info.size)` outside braces, so the size value is literal text. -/
def size_msg (path : String) (max_size : Nat) : String :=
  "file: \"" ++ path ++ "\" is too big (info.size), max: " ++ toString max_size

/-- Message of the magic-mismatch error (source line 251). -/
def magic_msg (path actual expected : String) : String :=
  "file: \"" ++ path ++ "\" has unexpected magic type: " ++ actual ++ " (expected: " ++ expected ++ ")"

/-- Message of the not-found error (source line 218); `path` is the
dot-prefixed name the final lookup attempted. -/
def not_found_msg (path : String) : String :=
  "File \"" ++ path ++ "\" not found in tar"

/-- The straight-line attribute checks of `validate_mode` (source lines
227-253) on an entry it has resolved: mode, uid, gid and size checks, then
the optional content parser and magic-signature check, with findings in
emission order. -/
def attr_findings (flavor : String) (name : Option String) (path : String) (info : TarInfo)
    (mode : List String) (uid : Nat) (gid : Option Nat) (max_size : Option Nat)
    (magicArg : Option String) (parse_method : Option (String → List Finding)) : List Finding :=
  (if ¬ mode.contains (oct info.mode) then
    [⟨Severity.warning, flavor, name, mode_msg path (oct info.mode) mode⟩] else [])
  ++ (if info.uid ≠ uid then [⟨Severity.warning, flavor, name, uid_msg path info.uid uid⟩] else [])
  ++ (match gid with
      | some g => if info.gid ≠ g then [⟨Severity.warning, flavor, name, gid_msg path info.gid g⟩] else []
      | none => [])
  ++ (match max_size with
      | some m => if info.size > m then [⟨Severity.error, flavor, name, size_msg path m⟩] else []
      | none => [])
  ++ (match parse_method with
      | some pm => pm info.content
      | none => [])
  ++ (match magicArg with
      | some mg => if info.file_magic ≠ mg then [⟨Severity.error, flavor, name, magic_msg path info.file_magic mg⟩] else []
      | none => [])

/-- `validate_mode` (source lines 199-253). Returns `some (found,
findings)` where `found` is the Python return value; `none` models a
recursion that has not reached a base case within `fuel` nested calls (the
source recursion has no depth guard). Lookup order: the path literally,
then dot-prefixed, then the parent-symlink redirect; a resolved symlink is
followed when `follow_symlink` is set; otherwise the attribute checks
run. -/
def validate_mode (flavor : String) (name : Option String) (tar : Tar) :
    Nat → String → List String → Nat → Option Nat → Option Nat → Bool → Bool →
    Option String → Option (String → List Finding) → Option (Bool × List Finding)
  | 0, _, _, _, _, _, _, _, _, _ => none
  | Nat.succ fuel, path, mode, uid, gid, max_size, optional, follow_symlink, magicArg, parse_method =>
    match getmember tar path with
    | some info =>
      if follow_symlink && info.issym then
        if pyStartsWith info.linkpath "/" then
          validate_mode flavor name tar fuel info.linkpath mode uid gid max_size optional true magicArg parse_method
        else
          validate_mode flavor name tar fuel (dirname path ++ "/" ++ info.linkpath) mode uid gid max_size optional true magicArg parse_method
      else
        some (true, attr_findings flavor name path info mode uid gid max_size magicArg parse_method)
    | none =>
      let path2 := "." ++ path
      match getmember tar path2 with
      | some info =>
        if follow_symlink && info.issym then
          if pyStartsWith info.linkpath "/" then
            validate_mode flavor name tar fuel info.linkpath mode uid gid max_size optional true magicArg parse_method
          else
            validate_mode flavor name tar fuel (dirname path2 ++ "/" ++ info.linkpath) mode uid gid max_size optional true magicArg parse_method
        else
          some (true, attr_findings flavor name path2 info mode uid gid max_size magicArg parse_method)
      | none =>
        let parent_path := dirname path2
        match (if parent_path ≠ path2 then getmember tar parent_path else none) with
        | some parent_info =>
          if parent_info.issym then
            validate_mode flavor name tar fuel
              ("/" ++ parent_info.linkpath ++ "/" ++ basename path2)
              mode uid gid max_size optional true magicArg none
          else if optional then some (false, [])
          else some (false, [⟨Severity.error, flavor, name, not_found_msg path2⟩])
        | none =>
          if optional then some (false, [])
          else some (false, [⟨Severity.error, flavor, name, not_found_msg path2⟩])

/-- The `extractfile`-with-fallback at the head of `validate_config`
(source lines 256-261): the path literally, then dot-prefixed. -/
def extract_config (tar : Tar) (p : String) : Option String :=
  match extractfile tar p with
  | some c => some c
  | none => extractfile tar ("." ++ p)

/-- Message of the unexpected-keys error (source line 272). -/
def unexpected_keys_msg (path : String) (ks : List String) : String :=
  "Found unexpected_keys in \"" ++ path ++ "\": " ++ pyStrListRepr ks

/-- `validate_config` (source lines 255-276): extract the file (literal
then dot-prefixed name), parse it as INI, flatten to `section.key` pairs
and report every key outside `valid_keys` in one single error finding. The
not-found message of the source interpolates the enclosing stream object; its
text is abbreviated here. Returns the flattened mapping (Python `keys`)
paired with the findings. -/
def validate_config (flavor : String) (name : Option String) (tar : Tar)
    (path : String) (valid_keys : List String) :
    Option (List (String × String)) × List Finding :=
  match extract_config tar path with
  | none => (none, [⟨Severity.error, flavor, name, "File not found in tar"⟩])
  | some content =>
    let keys := read_config_keys (configparser_read_string content)
    let unexpected := (keys.map Prod.fst).filter (fun e => ¬ valid_keys.contains e)
    if unexpected ≠ [] then
      (some keys, [⟨Severity.error, flavor, name, unexpected_keys_msg path unexpected⟩])
    else
      (some keys, [])

/-- `read_passwd_line` (source lines 123-135): split a decoded line on
`:`; a line without exactly 7 fields, or whose third field is not an
integer, reports an error and yields the `(None, None)` sentinel. -/
def read_passwd_line (flavor : String) (name : Option String) (line : String) :
    (Option Int × Option (List String)) × List Finding :=
  let fields := pySplit line ':'
  if fields.length ≠ 7 then
    ((none, none), [⟨Severity.error, flavor, name, "Invalid passwd entry: " ++ line⟩])
  else
    match pyInt (fields.getD 2 "") with
    | none => ((none, none), [⟨Severity.error, flavor, name, "Invalid passwd entry: " ++ line⟩])
    | some uid => ((some uid, some fields), [])

/-- One iteration of the `read_passwd` loop (source lines 139-145): the
uid of the line (which is the `None` sentinel for a malformed line) is looked up
in the entry dictionary; a hit reports a duplicate, a miss stores the
fields under that uid. -/
def read_passwd_step (flavor : String) (name : Option String)
    (acc : List (Option Int × Option (List String)) × List Finding) (line : String) :
    List (Option Int × Option (List String)) × List Finding :=
  let r := read_passwd_line flavor name line
  let fs := acc.2 ++ r.2
  if assocHas acc.1 r.1.1 then
    (acc.1, fs ++ [⟨Severity.error, flavor, name,
      "found duplicated uid in /etc/passw: " ++ pyReprOptInt r.1.1⟩])
  else
    (acc.1 ++ [(r.1.1, r.1.2)], fs)

/-- `read_passwd` (source lines 122-153) on the decoded lines of
`/etc/passwd`: build the uid-keyed entry dictionary, then check that uid 0
exists and is named `root`, and warn when the manifest default uid already
has an entry. Findings are returned in emission order. -/
def read_passwd (flavor : String) (name : Option String) (default_uid : Option Int)
    (lines : List String) : List Finding :=
  let r := lines.foldl (read_passwd_step flavor name) ([], [])
  let entries := r.1
  let fs := r.2 ++
    (if ¬ assocHas entries (some (0 : Int)) then
      [⟨Severity.error, flavor, name, "No root (uid=0) found in /etc/passwd"⟩]
    else
      match assocGet entries (some (0 : Int)) with
      | some (some fields0) =>
        if fields0.headD "" ≠ "root" then
          [⟨Severity.error, flavor, name,
            "/etc/passwd has a uid=0, but it is not root: " ++ fields0.headD ""⟩]
        else []
      | _ => [])
  fs ++
    (match default_uid with
    | some d =>
      if assocHas entries (some d) then
        [⟨Severity.warning, flavor, name,
          "/etc/passwd already has an entry for default uid: " ++
            pyReprFields ((assocGet entries (some d)).getD none)⟩]
      else []
    | none => [])

/-- `link_target` (source lines 161-170): look the unit path up literally,
then dot-prefixed; `.error ()` models the `KeyError` escaping both
attempts. A non-symlink resolves to the unit path argument itself, a
symlink to its stored link target. -/
def link_target (tar : Tar) (unit_path : String) : Except Unit String :=
  match getmember tar unit_path with
  | some info => .ok (if info.issym then info.linkpath else unit_path)
  | none =>
    match getmember tar ("." ++ unit_path) with
    | some info => .ok (if info.issym then info.linkpath else unit_path)
    | none => .error ()

/-- `list_directory` (source lines 172-180): every archive name extending
`path` (or its dot-prefixed form) contributes its remainder after the
prefix and separator. -/
def list_directory (all_files : List String) (path : String) : List String :=
  all_files.filterMap (fun e =>
    if pyStartsWith e path then some (pyDrop e (pyLen path + 1))
    else if pyStartsWith e ("." ++ path) then some (pyDrop e (pyLen path + 2))
    else none)

/-- The three systemd unit search roots (source line 157). -/
def config_dirs : List String :=
  ["/usr/local/lib/systemd/system", "/usr/lib/systemd/system", "/etc/systemd/system"]

/-- One member of one `.target.wants` directory (source lines 188-192):
resolve one symlink hop; record the member under its filename with the full
wants-directory path as value unless the hop target is `/dev/null`. -/
def unit_step (tar : Tar) (config_dir target : String)
    (units : List (String × String)) (e : String) : Except Unit (List (String × String)) :=
  let fullpath := config_dir ++ "/" ++ target ++ "/" ++ e
  match link_target tar fullpath with
  | .error u => .error u
  | .ok unit_target =>
    .ok (if unit_target ≠ "/dev/null" then assocInsert units e fullpath else units)

/-- `read_systemd_enabled_units` (source lines 156-194): scan the
`.target.wants` directories under the three search roots and accumulate
the unit dictionary; `.error ()` models a `KeyError` escaping
`link_target`. -/
def read_systemd_enabled_units (tar : Tar) : Except Unit (List (String × String)) :=
  let all_files := getnames tar
  config_dirs.foldlM
    (fun units config_dir =>
      let targets := (list_directory all_files config_dir).filter
        (fun e => pyEndsWith e ".target.wants")
      targets.foldlM
        (fun units target =>
          (list_directory all_files (config_dir ++ "/" ++ target)).foldlM
            (unit_step tar config_dir target) units)
        units)
    []

/-- State of a `hashlib.sha256` object, idealised as the byte stream it has
absorbed; `digest()` is modelled injectively by that stream itself. -/
abbrev HashState : Type := List Nat

/-- Hex character of a nibble. -/
def hexChar (n : Nat) : Char :=
  if n < 10 then Char.ofNat ('0'.toNat + n) else Char.ofNat ('a'.toNat + n - 10)

/-- Value of a hex digit, `none` for a non-hex character. -/
def hexVal (c : Char) : Option Nat :=
  if '0' ≤ c ∧ c ≤ '9' then some (c.toNat - '0'.toNat)
  else if 'a' ≤ c ∧ c ≤ 'f' then some (c.toNat - 'a'.toNat + 10)
  else if 'A' ≤ c ∧ c ≤ 'F' then some (c.toNat - 'A'.toNat + 10)
  else none

/-- Python `bytes.fromhex` on a string without separators: pairs of hex
digits; `none` models the `ValueError`. -/
def bytes_fromhex : List Char → Option (List Nat)
  | [] => some []
  | [_] => none
  | c1 :: c2 :: rest =>
    match hexVal c1, hexVal c2, bytes_fromhex rest with
    | some h, some l, some bs => some ((h * 16 + l) :: bs)
    | _, _, _ => none

/-- Python `hash.hexdigest()` over the idealised digest bytes. -/
def hexdigest (bs : List Nat) : String :=
  String.mk (bs.foldr (fun b acc => hexChar (b / 16) :: hexChar (b % 16) :: acc) [])

/-- One architecture URL of a manifest entry: `{Url, Sha256?}`. -/
structure UrlRef where
  Url : String
  Sha256 : Option String
deriving DecidableEq

/-- The transport-level outcome a fetch would observe: `ok` is whether
`response.raise_for_status()` passes, `chunks` the chunks
`response.iter_content` yields. -/
structure HttpResponse where
  ok : Bool
  chunks : List (List Nat)
deriving DecidableEq

/-- Environment of one `read_url` call: the chunks a `file://` source
yields, and the HTTP response a remote source yields. -/
structure FetchEnv where
  fileChunks : List (List Nat)
  response : HttpResponse
deriving DecidableEq

/-- Message of the digest-mismatch error (source line 356). -/
def sha_mismatch_msg (url expected : String) (h : HashState) : String :=
  "URL " ++ url ++ " Sha256 does not match. Expected: " ++ expected ++ ", actual: " ++ hexdigest h

/-- `read_url` (source lines 321-358), fetch and digest logic. The local
variable `hash` is assigned only inside the `file://` branch (line 323), so
it is modelled as `Option HashState` starting at `none`; touching it while
`none` is the Python `UnboundLocalError`, modelled as `.error
"UnboundLocalError"`. A failing `raise_for_status` is `.error
"requests.HTTPError"`. The nested `read_tar` call emits archive findings
and never touches `hash`; it is elided here. The digest comparison at the
end models `hash.digest()` against `bytes.fromhex` of the declared value
(`0x` prefix stripped). -/
def read_url (flavor : String) (name : Option String) (url : UrlRef) (env : FetchEnv) :
    Except String (List Finding) :=
  let fetched : Except String (Option HashState) :=
    if pyStartsWith url.Url "file://" then
      .ok (some (env.fileChunks.foldl (fun h c => h ++ c) ([] : HashState)))
    else if env.response.ok = false then
      .error "requests.HTTPError"
    else
      (env.response.chunks.foldlM
        (fun (st : Option HashState × List Nat) chunk =>
          match st.1 with
          | none => (.error "UnboundLocalError" : Except String (Option HashState × List Nat))
          | some h => .ok (some (h ++ chunk), st.2 ++ chunk))
        ((none : Option HashState), ([] : List Nat))).map Prod.fst
  match fetched with
  | .error e => .error e
  | .ok hashVar =>
    match url.Sha256 with
    | none => .ok [⟨Severity.error, flavor, name, "URL is missing \"Sha256\""⟩]
    | some expected0 =>
      let expected := if pyStartsWith expected0 "0x" then pyDrop expected0 2 else expected0
      match hashVar with
      | none => .error "UnboundLocalError"
      | some h =>
        match bytes_fromhex expected.toList with
        | none => .error "ValueError"
        | some eb =>
          if eb ≠ h then .ok [⟨Severity.error, flavor, name, sha_mismatch_msg url.Url expected h⟩]
          else .ok []

/-- One entry of a distribution family in the manifest. -/
structure ManifestEntry where
  Name : Option String
  FriendlyName : Option String
  Default : Option Bool
  Amd64Url : Option UrlRef
  Arm64Url : Option UrlRef
deriving DecidableEq

/-- The per-family default-distribution check of `main` (source lines
101-103): count the entries whose `Default` is true and report a single
family-level error when the count is not one. -/
def main_default_check (flavor : String) (versions : List ManifestEntry) : List Finding :=
  let default_entries := (versions.filter (fun e => e.Default.getD false)).length
  if default_entries ≠ 1 then
    [⟨Severity.error, flavor, none,
      if default_entries = 0 then "Found no default distribution"
      else "Found multiple default distributions"⟩]
  else []

/-- The name-prefix check of `main` (source lines 78-79): an error is
reported exactly when the entry name starts with the family name; the
source message lacks the `f` prefix, so the braces are literal text. -/
def main_name_prefix_check (flavor name : String) : List Finding :=
  if pyStartsWith name flavor then
    [⟨Severity.error, flavor, some name, "Name should start with \"\x7bflavor\x7d\""⟩]
  else []

/-- Python truthiness of `config.get(key, False)`: a missing key is
`False`, a present key is its string value, truthy iff non-empty. -/
def pyTruthyStr : Option String → Bool
  | none => false
  | some s => s ≠ ""

/-- The `/sbin/init` gate of `read_tar` (source lines 306-309): whether the
`validate_mode` call for `/sbin/init` on line 309 is reached. `.error`
models a Python exception: exhausted recursion depth inside
`validate_mode`, or `config.get` on the `None` returned by a failed
`validate_config` (an `AttributeError`). -/
def boot_systemd_gate (flavor : String) (name : Option String) (tar : Tar) (fuel : Nat) :
    Except String Bool :=
  match validate_mode flavor name tar fuel "/etc/wsl.conf" [oct 0o664, oct 0o644] 0 (some 0)
      none true false none none with
  | none => .error "RecursionError"
  | some r =>
    if r.1 then
      match (validate_config flavor name tar "/etc/wsl.conf" ["boot.systemd"]).1 with
      | none => .error "AttributeError"
      | some keys => .ok (pyTruthyStr (assocGet keys "boot.systemd"))
    else .ok false

/-- An archive holding one symlink `/a` whose stored link target is `/a`
itself: the smallest cyclic-symlink archive. -/
def tar_cyclic : Tar :=
  [⟨"/a", 0o777, 0, 0, 0, true, "/a", "", ""⟩]

/-- C10: `main` emits an error finding about the name/flavor prefix
relation exactly when the `Name` of the entry starts with the family string, and
emits no such finding otherwise; every emitted finding is an error. -/
theorem c10_name_prefix_error_iff (flavor name : String) :
    (main_name_prefix_check flavor name).length = (if pyStartsWith name flavor then 1 else 0)
    ∧ (main_name_prefix_check flavor name).all
        (fun f => decide (f.severity = Severity.error)) = true := by
  cases hp : pyStartsWith name flavor <;> simp [main_name_prefix_check, hp]

/-- C9: per distribution family, `main` emits no default-distribution
finding when exactly one entry has `Default` true, exactly one `no default`
error when none has, and exactly one `multiple defaults` error when two or
more have. -/
theorem c9_default_count_findings (flavor : String) (versions : List ManifestEntry) :
    ((versions.filter (fun e => e.Default.getD false)).length = 1 →
      main_default_check flavor versions = [])
    ∧ ((versions.filter (fun e => e.Default.getD false)).length = 0 →
      main_default_check flavor versions =
        [⟨Severity.error, flavor, none, "Found no default distribution"⟩])
    ∧ (2 ≤ (versions.filter (fun e => e.Default.getD false)).length →
      main_default_check flavor versions =
        [⟨Severity.error, flavor, none, "Found multiple default distributions"⟩]) := by
  refine ⟨fun h => ?_, fun h => ?_, fun h => ?_⟩
  · simp [main_default_check, h]
  · simp [main_default_check, h]
  · have h1 : ¬ (versions.filter (fun e => e.Default.getD false)).length = 1 := by omega
    have h0 : ¬ (versions.filter (fun e => e.Default.getD false)).length = 0 := by omega
    simp [main_default_check, h1, h0]

/-- Witness for C9 at a concrete one-entry family with no default. -/
theorem c9_default_count_findings_witness :
    main_default_check "ubuntu" [⟨some "Ubuntu-24.04", some "Ubuntu 24.04", some false, none, none⟩]
      = [⟨Severity.error, "ubuntu", none, "Found no default distribution"⟩] :=
  (c9_default_count_findings "ubuntu"
    [⟨some "Ubuntu-24.04", some "Ubuntu 24.04", some false, none, none⟩]).2.1 rfl

/-- C3: evaluation of `read_passwd` on two malformed lines followed by a
valid root line. Each malformed line does produce an error finding, but the
first one also inserts the `None` sentinel into the entry map, so the
second malformed line trips the duplicate-uid check and reports a spurious
`found duplicated uid in /etc/passw: None` error, contradicting the claim
that malformed lines are skipped and never influence the duplicate-uid
check. -/
theorem c3_read_passwd_malformed_poisons_dup_check :
    read_passwd "debian" none none
      ["foo\n", "bar\n", "root:x:0:0:root:/root:/bin/bash\n"]
      = [⟨Severity.error, "debian", none, "Invalid passwd entry: foo\n"⟩,
         ⟨Severity.error, "debian", none, "Invalid passwd entry: bar\n"⟩,
         ⟨Severity.error, "debian", none, "found duplicated uid in /etc/passw: None"⟩] := by
  rfl

/-- C5: on the cyclic archive `tar_cyclic`, the symlink-following recursion
of `validate_mode` started at `/a` never reaches a base case, for every
recursion budget: the source has no hop limit and a cyclic symlink makes it
recurse forever. -/
theorem c5_cyclic_symlink_never_terminates (fuel : Nat) :
    validate_mode "debian" none tar_cyclic fuel "/a" [oct 0o755] 0 (some 0) none
      false true none none = none := by
  induction fuel with
  | zero => rfl
  | succ n ih => exact ih

/-- C2: for a remote (non-`file://`) URL whose HTTP status is a success and
whose response body is nonempty, `read_url` aborts with
`UnboundLocalError`: the digest variable is assigned only in the `file://`
branch, so the remote branch touches it before any initialization. -/
theorem c2_read_url_remote_unbound (flavor : String) (name : Option String)
    (url : UrlRef) (env : FetchEnv)
    (h1 : pyStartsWith url.Url "file://" = false)
    (h2 : env.response.ok = true)
    (h3 : env.response.chunks ≠ []) :
    read_url flavor name url env = .error "UnboundLocalError" := by
  obtain ⟨c, cs, hc⟩ := List.exists_cons_of_ne_nil h3
  simp only [read_url, h1, h2, hc, List.foldlM, Bool.false_eq_true, if_false,
    Except.map, Except.bind]
  rfl

/-- Witness for C2 at a concrete https URL with one response chunk. -/
theorem c2_read_url_remote_unbound_witness :
    read_url "debian" none ⟨"https://example.com/rootfs.tar", some "00"⟩
      ⟨[], ⟨true, [[1, 2, 3]]⟩⟩ = .error "UnboundLocalError" :=
  c2_read_url_remote_unbound "debian" none
    ⟨"https://example.com/rootfs.tar", some "00"⟩ ⟨[], ⟨true, [[1, 2, 3]]⟩⟩
    rfl rfl (by simp)

/-- C1: the archive lookup shared by `validate_mode` and `link_target`
tries the path literally first, then dot-prefixed, before declaring the
entry absent, so an entry stored under either convention resolves
identically: a literal hit wins, otherwise the dot-prefixed lookup decides;
`link_target` follows exactly this resolution; and a path `validate_mode`
resolves this way is reported found. -/
theorem c1_lookup_both_conventions (fl : String) (nm : Option String) (tar : Tar)
    (p : String) (i : TarInfo) (m : List String) (u : Nat) (g : Option Nat) :
    (getmember tar p = some i → resolveMember tar p = some i)
    ∧ (getmember tar p = none → resolveMember tar p = getmember tar ("." ++ p))
    ∧ (getmember tar p = none → getmember tar ("." ++ p) = some i →
        resolveMember tar p = some i)
    ∧ (link_target tar p = (match resolveMember tar p with
        | none => Except.error ()
        | some info => Except.ok (if info.issym then info.linkpath else p)))
    ∧ (resolveMember tar p = some i →
        ∃ fs, validate_mode fl nm tar 1 p m u g none false false none none
          = some (true, fs)) := by
  refine ⟨fun h => ?_, fun h => ?_, fun h h2 => ?_, ?_, fun h => ?_⟩
  · simp [resolveMember, h]
  · simp [resolveMember, h]
  · simp [resolveMember, h, h2]
  · cases h : getmember tar p with
    | some j => simp [link_target, resolveMember, h]
    | none =>
      cases h2 : getmember tar ("." ++ p) with
      | some j => simp [link_target, resolveMember, h, h2]
      | none => simp [link_target, resolveMember, h, h2]
  · cases hb : getmember tar p with
    | some j =>
      rw [resolveMember, hb] at h
      refine ⟨attr_findings fl nm p i m u g none none none, ?_⟩
      simp only [validate_mode, hb]
      simp [Option.some.injEq] at h
      rw [h]
      simp
    | none =>
      rw [resolveMember, hb] at h
      simp only [] at h
      refine ⟨attr_findings fl nm ("." ++ p) i m u g none none none, ?_⟩
      simp only [validate_mode, hb, h]
      simp

/-- Witness for C1: an archive storing `/etc/passwd` only under the
dot-prefixed convention still resolves, with the same entry the bare
convention would give. -/
theorem c1_lookup_both_conventions_witness :
    resolveMember [⟨"./etc/passwd", 0o644, 0, 0, 5, false, "", "root:x:0:0:r:/root:/bin/sh\n", ""⟩]
      "/etc/passwd"
      = some ⟨"./etc/passwd", 0o644, 0, 0, 5, false, "", "root:x:0:0:r:/root:/bin/sh\n", ""⟩ :=
  (c1_lookup_both_conventions "debian" none
    [⟨"./etc/passwd", 0o644, 0, 0, 5, false, "", "root:x:0:0:r:/root:/bin/sh\n", ""⟩]
    "/etc/passwd"
    ⟨"./etc/passwd", 0o644, 0, 0, 5, false, "", "root:x:0:0:r:/root:/bin/sh\n", ""⟩
    [] 0 none).2.2.1 rfl rfl

/-- C6: for an entry `validate_mode` resolves (no symlink following,
no signature or content parser): a mode outside the accepted set, a uid
mismatch and a declared-gid mismatch each contribute a warning finding,
the size exceeding a declared bound contributes an error finding, and every
error finding among the emitted ones is that size finding. -/
theorem c6_mismatch_severities (fl : String) (nm : Option String) (tar : Tar)
    (path : String) (info : TarInfo) (mode : List String) (uid : Nat) (gid : Option Nat)
    (max_size : Option Nat) (optional : Bool)
    (h : resolveMember tar path = some info) :
    ∃ p2, validate_mode fl nm tar 1 path mode uid gid max_size optional false none none
        = some (true, attr_findings fl nm p2 info mode uid gid max_size none none)
      ∧ (¬ mode.contains (oct info.mode) →
          (⟨Severity.warning, fl, nm, mode_msg p2 (oct info.mode) mode⟩ : Finding)
            ∈ attr_findings fl nm p2 info mode uid gid max_size none none)
      ∧ (info.uid ≠ uid →
          (⟨Severity.warning, fl, nm, uid_msg p2 info.uid uid⟩ : Finding)
            ∈ attr_findings fl nm p2 info mode uid gid max_size none none)
      ∧ (∀ g2, gid = some g2 → info.gid ≠ g2 →
          (⟨Severity.warning, fl, nm, gid_msg p2 info.gid g2⟩ : Finding)
            ∈ attr_findings fl nm p2 info mode uid gid max_size none none)
      ∧ (∀ m2, max_size = some m2 → info.size > m2 →
          (⟨Severity.error, fl, nm, size_msg p2 m2⟩ : Finding)
            ∈ attr_findings fl nm p2 info mode uid gid max_size none none)
      ∧ (∀ f ∈ attr_findings fl nm p2 info mode uid gid max_size none none,
          f.severity = Severity.error →
          ∃ m2, max_size = some m2 ∧ info.size > m2
            ∧ f = ⟨Severity.error, fl, nm, size_msg p2 m2⟩) := by
  have spec : ∀ p2 : String,
      (¬ mode.contains (oct info.mode) →
        (⟨Severity.warning, fl, nm, mode_msg p2 (oct info.mode) mode⟩ : Finding)
          ∈ attr_findings fl nm p2 info mode uid gid max_size none none)
      ∧ (info.uid ≠ uid →
        (⟨Severity.warning, fl, nm, uid_msg p2 info.uid uid⟩ : Finding)
          ∈ attr_findings fl nm p2 info mode uid gid max_size none none)
      ∧ (∀ g2, gid = some g2 → info.gid ≠ g2 →
        (⟨Severity.warning, fl, nm, gid_msg p2 info.gid g2⟩ : Finding)
          ∈ attr_findings fl nm p2 info mode uid gid max_size none none)
      ∧ (∀ m2, max_size = some m2 → info.size > m2 →
        (⟨Severity.error, fl, nm, size_msg p2 m2⟩ : Finding)
          ∈ attr_findings fl nm p2 info mode uid gid max_size none none)
      ∧ (∀ f ∈ attr_findings fl nm p2 info mode uid gid max_size none none,
        f.severity = Severity.error →
        ∃ m2, max_size = some m2 ∧ info.size > m2
          ∧ f = ⟨Severity.error, fl, nm, size_msg p2 m2⟩) := by
    intro p2
    refine ⟨fun hm => ?_, fun hu => ?_, fun g2 hg hne => ?_, fun m2 hm2 hsz => ?_,
      fun f hf hsev => ?_⟩
    · have hm3 : oct info.mode ∉ mode := by simpa using hm
      simp [attr_findings, hm3]
    · simp [attr_findings, hu]
    · subst hg
      simp [attr_findings, hne]
    · subst hm2
      simp [attr_findings, hsz]
    · simp only [attr_findings, List.mem_append] at hf
      rcases hf with ((((hf | hf) | hf) | hf) | hf) | hf
      · split at hf
        · simp only [List.mem_singleton] at hf
          rw [hf] at hsev
          exact absurd hsev (by simp)
        · simp at hf
      · split at hf
        · simp only [List.mem_singleton] at hf
          rw [hf] at hsev
          exact absurd hsev (by simp)
        · simp at hf
      · rcases gid with _ | g2
        · simp at hf
        · simp only [] at hf
          split at hf
          · simp only [List.mem_singleton] at hf
            rw [hf] at hsev
            exact absurd hsev (by simp)
          · simp at hf
      · rcases max_size with _ | m2
        · simp at hf
        · simp only [] at hf
          split at hf
          · rename_i hgt
            simp only [List.mem_singleton] at hf
            exact ⟨m2, rfl, hgt, hf⟩
          · simp at hf
      · simp at hf
      · simp at hf
  cases hb : getmember tar path with
  | some j =>
    rw [resolveMember, hb] at h
    simp only [Option.some.injEq] at h
    subst h
    exact ⟨path, by simp only [validate_mode, hb]; simp, spec path⟩
  | none =>
    rw [resolveMember, hb] at h
    simp only [] at h
    exact ⟨"." ++ path, by simp only [validate_mode, hb, h]; simp, spec ("." ++ path)⟩

/-- Witness for C6: an entry whose mode, uid, gid all mismatch and whose
size exceeds the bound; the theorem applies at it. -/
theorem c6_mismatch_severities_witness :
    ∃ p2, validate_mode "debian" none
        [⟨"/etc/shadow", 0o777, 5, 7, 100, false, "", "", ""⟩] 1
        "/etc/shadow" [oct 0o640, oct 0o600] 0 (some 0) (some 50) false false none none
        = some (true, attr_findings "debian" none p2
            ⟨"/etc/shadow", 0o777, 5, 7, 100, false, "", "", ""⟩
            [oct 0o640, oct 0o600] 0 (some 0) (some 50) none none)
      ∧ (¬ [oct 0o640, oct 0o600].contains (oct 0o777) →
          (⟨Severity.warning, "debian", none, mode_msg p2 (oct 0o777) [oct 0o640, oct 0o600]⟩ : Finding)
            ∈ attr_findings "debian" none p2 ⟨"/etc/shadow", 0o777, 5, 7, 100, false, "", "", ""⟩
                [oct 0o640, oct 0o600] 0 (some 0) (some 50) none none)
      ∧ ((5 : Nat) ≠ 0 →
          (⟨Severity.warning, "debian", none, uid_msg p2 5 0⟩ : Finding)
            ∈ attr_findings "debian" none p2 ⟨"/etc/shadow", 0o777, 5, 7, 100, false, "", "", ""⟩
                [oct 0o640, oct 0o600] 0 (some 0) (some 50) none none)
      ∧ (∀ g2, (some 0 : Option Nat) = some g2 → (7 : Nat) ≠ g2 →
          (⟨Severity.warning, "debian", none, gid_msg p2 7 g2⟩ : Finding)
            ∈ attr_findings "debian" none p2 ⟨"/etc/shadow", 0o777, 5, 7, 100, false, "", "", ""⟩
                [oct 0o640, oct 0o600] 0 (some 0) (some 50) none none)
      ∧ (∀ m2, (some 50 : Option Nat) = some m2 → (100 : Nat) > m2 →
          (⟨Severity.error, "debian", none, size_msg p2 m2⟩ : Finding)
            ∈ attr_findings "debian" none p2 ⟨"/etc/shadow", 0o777, 5, 7, 100, false, "", "", ""⟩
                [oct 0o640, oct 0o600] 0 (some 0) (some 50) none none)
      ∧ (∀ f ∈ attr_findings "debian" none p2 ⟨"/etc/shadow", 0o777, 5, 7, 100, false, "", "", ""⟩
            [oct 0o640, oct 0o600] 0 (some 0) (some 50) none none,
          f.severity = Severity.error →
          ∃ m2, (some 50 : Option Nat) = some m2 ∧ (100 : Nat) > m2
            ∧ f = ⟨Severity.error, "debian", none, size_msg p2 m2⟩) :=
  c6_mismatch_severities "debian" none
    [⟨"/etc/shadow", 0o777, 5, 7, 100, false, "", "", ""⟩]
    "/etc/shadow" ⟨"/etc/shadow", 0o777, 5, 7, 100, false, "", "", ""⟩
    [oct 0o640, oct 0o600] 0 (some 0) (some 50) false rfl

/-- C7: when `validate_config` can extract the file, a content whose
flattened `section.key` pairs all lie in the allow-list yields zero
findings and exactly that flattened mapping; a content with keys outside
the allow-list yields exactly one error finding whose message lists all of
the unexpected keys. -/
theorem c7_validate_config_findings (fl : String) (nm : Option String) (tar : Tar)
    (path : String) (valid_keys : List String) (content : String)
    (h : extract_config tar path = some content) :
    ((∀ k ∈ (read_config_keys (configparser_read_string content)).map Prod.fst,
        valid_keys.contains k) →
      validate_config fl nm tar path valid_keys
        = (some (read_config_keys (configparser_read_string content)), []))
    ∧ (((read_config_keys (configparser_read_string content)).map Prod.fst).filter
          (fun e => ¬ valid_keys.contains e) ≠ [] →
      validate_config fl nm tar path valid_keys
        = (some (read_config_keys (configparser_read_string content)),
           [⟨Severity.error, fl, nm,
             unexpected_keys_msg path
               (((read_config_keys (configparser_read_string content)).map Prod.fst).filter
                 (fun e => ¬ valid_keys.contains e))⟩])) := by
  constructor
  · intro hall
    have hnil : ((read_config_keys (configparser_read_string content)).map Prod.fst).filter
        (fun e => ¬ valid_keys.contains e) = [] := by
      rw [List.filter_eq_nil_iff]
      intro a ha
      simpa using hall a ha
    simp only [validate_config, h]
    rw [hnil]
    simp
  · intro hne
    simp only [validate_config, h]
    rw [if_pos hne]

/-- Witness for C7: a config with one allow-listed key yields zero
findings and exactly that key. -/
theorem c7_validate_config_findings_witness :
    validate_config "debian" none
      [⟨"/etc/wsl.conf", 0o644, 0, 0, 20, false, "", "[boot]\nsystemd=true\n", ""⟩]
      "/etc/wsl.conf" ["boot.systemd"]
      = (some (read_config_keys (configparser_read_string "[boot]\nsystemd=true\n")), []) :=
  (c7_validate_config_findings "debian" none
    [⟨"/etc/wsl.conf", 0o644, 0, 0, 20, false, "", "[boot]\nsystemd=true\n", ""⟩]
    "/etc/wsl.conf" ["boot.systemd"] "[boot]\nsystemd=true\n" rfl).1 (by decide)

/-- An archive whose `/etc/wsl.conf` sets `boot.systemd` to the string
`false`, i.e. systemd boot is explicitly disabled. -/
def tar_wslconf_false : Tar :=
  [⟨"./etc/wsl.conf", 0o644, 0, 0, 22, false, "", "[boot]\nsystemd=false\n", ""⟩]

/-- C8 counterexample: in `tar_wslconf_false` the flattened config maps
`boot.systemd` to the string `false` — systemd boot is not enabled — yet
the gate still reaches the `/sbin/init` check, because the source tests
Python truthiness of the raw string rather than interpreting it as a
boolean. -/
theorem c8_checked_when_disabled_counterexample :
    assocGet (read_config_keys (configparser_read_string "[boot]\nsystemd=false\n"))
        "boot.systemd" = some "false"
    ∧ boot_systemd_gate "debian" none tar_wslconf_false 2 = .ok true :=
  ⟨rfl, rfl⟩

/-- C8 amended: the `/sbin/init` validation is reached iff `/etc/wsl.conf`
resolves in the archive and its flattened keys hold `boot.systemd` with a
non-empty string value (Python truthiness; the value is not parsed as a
boolean, so even `false` triggers the check); when the file does not
resolve (and no parent-symlink redirect applies), `/sbin/init` is not
checked. -/
theorem c8_gate_iff_nonempty_value (fl : String) (nm : Option String) (tar : Tar)
    (fuel : Nat) :
    (∀ info, resolveMember tar "/etc/wsl.conf" = some info →
      boot_systemd_gate fl nm tar (fuel + 1) =
        .ok (pyTruthyStr (assocGet
          (read_config_keys (configparser_read_string info.content)) "boot.systemd")))
    ∧ (resolveMember tar "/etc/wsl.conf" = none →
      (∀ pinfo, getmember tar "./etc" = some pinfo → pinfo.issym = false) →
      boot_systemd_gate fl nm tar (fuel + 1) = .ok false) := by
  constructor
  · intro info h
    cases hb : getmember tar "/etc/wsl.conf" with
    | some j =>
      rw [resolveMember, hb, Option.some.injEq] at h
      subst h
      simp only [boot_systemd_gate, validate_mode, hb, Bool.false_and, if_false,
        validate_config, extract_config, extractfile, Option.map_some]
      simp [apply_ite Prod.fst]
    | none =>
      rw [resolveMember, hb] at h
      simp only [] at h
      simp only [boot_systemd_gate, validate_mode, hb, h, Bool.false_and, if_false,
        validate_config, extract_config, extractfile, Option.map_none, Option.map_some]
      simp [apply_ite Prod.fst]
  · intro h hpar
    have hb : getmember tar "/etc/wsl.conf" = none := by
      cases hx : getmember tar "/etc/wsl.conf" with
      | some j => rw [resolveMember, hx] at h; simp at h
      | none => rfl
    have hd : getmember tar ("." ++ "/etc/wsl.conf") = none := by
      rw [resolveMember, hb] at h
      simpa using h
    have hdir : dirname ("." ++ "/etc/wsl.conf") = "./etc" := rfl
    simp only [boot_systemd_gate, validate_mode, hb, hd, hdir]
    rw [if_pos (by decide : ("./etc" : String) ≠ "." ++ "/etc/wsl.conf")]
    cases hp : getmember tar "./etc" with
    | some pinfo => simp [hpar pinfo hp]
    | none => simp

/-- Witness for C8 amended: a config enabling `boot.systemd` makes the
gate evaluate to the truthiness of the stored value. -/
theorem c8_gate_iff_nonempty_value_witness :
    boot_systemd_gate "debian" none
      [⟨"/etc/wsl.conf", 0o644, 0, 0, 21, false, "", "[boot]\nsystemd=true\n", ""⟩] 1
      = .ok (pyTruthyStr (assocGet
          (read_config_keys (configparser_read_string "[boot]\nsystemd=true\n"))
          "boot.systemd")) :=
  (c8_gate_iff_nonempty_value "debian" none
    [⟨"/etc/wsl.conf", 0o644, 0, 0, 21, false, "", "[boot]\nsystemd=true\n", ""⟩] 0).1
    ⟨"/etc/wsl.conf", 0o644, 0, 0, 21, false, "", "[boot]\nsystemd=true\n", ""⟩ rfl

/-- Keys survive a dictionary insertion. -/
lemma assocHas_insert_of_has {α β : Type} [DecidableEq α] (d : List (α × β)) (k2 : α) (v : β)
    (k : α) (h : assocHas d k = true) : assocHas (assocInsert d k2 v) k = true := by
  unfold assocInsert
  split
  · simp only [assocHas, List.any_map, List.any_eq_true] at h ⊢
    obtain ⟨kv, hkv, hk⟩ := h
    refine ⟨kv, hkv, ?_⟩
    simp only [Function.comp_apply]
    by_cases he : kv.1 = k2
    · rw [if_pos he]
      simp only [decide_eq_true_eq] at hk ⊢
      rw [← he]
      exact hk
    · rw [if_neg he]
      exact hk
  · simp only [assocHas] at h ⊢
    rw [List.any_append, h, Bool.true_or]

/-- The inserted key is present after a dictionary insertion. -/
lemma assocHas_insert_self {α β : Type} [DecidableEq α] (d : List (α × β)) (k : α) (v : β) :
    assocHas (assocInsert d k v) k = true := by
  unfold assocInsert
  split
  · rename_i hhas
    simp only [assocHas, List.any_map, List.any_eq_true] at hhas ⊢
    obtain ⟨kv, hkv, hk⟩ := hhas
    refine ⟨kv, hkv, ?_⟩
    simp only [Function.comp_apply, decide_eq_true_eq] at hk ⊢
    rw [if_pos hk]
  · simp [assocHas]

/-- Every pair of an inserted dictionary is an old pair or the new one. -/
lemma mem_assocInsert {α β : Type} [DecidableEq α] {d : List (α × β)} {k : α} {v : β}
    {kv : α × β} (h : kv ∈ assocInsert d k v) : kv ∈ d ∨ kv = (k, v) := by
  unfold assocInsert at h
  split at h
  · obtain ⟨kv2, hkv2, he⟩ := List.mem_map.1 h
    by_cases hk : kv2.1 = k
    · exact Or.inr (by rw [← he, if_pos hk])
    · exact Or.inl (by rw [← he, if_neg hk]; exact hkv2)
  · rcases List.mem_append.1 h with h2 | h2
    · exact Or.inl h2
    · exact Or.inr (by simpa using h2)

/-- A predicate preserved by every succeeding step of an `Except` fold
holds for the fold result. -/
lemma foldlM_ok_invariant {α β ε : Type} (g : β → α → Except ε β) (I : β → Prop) :
    ∀ (l : List α) (init out : β),
      (∀ acc x acc2, x ∈ l → I acc → g acc x = Except.ok acc2 → I acc2) →
      I init → List.foldlM g init l = Except.ok out → I out := by
  intro l
  induction l with
  | nil =>
    intro init out _ hI heq
    rw [List.foldlM_nil] at heq
    have h2 : init = out := by
      have h3 : Except.ok (ε := ε) init = Except.ok out := heq
      exact Except.ok.inj h3
    exact h2 ▸ hI
  | cons x xs ih =>
    intro init out hg hI heq
    rw [List.foldlM_cons] at heq
    cases hgx : g init x with
    | error e =>
      rw [hgx] at heq
      have h2 : Except.error (α := β) e = Except.ok out := heq
      exact Except.noConfusion h2
    | ok b =>
      rw [hgx] at heq
      have heq2 : List.foldlM g b xs = Except.ok out := heq
      exact ih b out (fun a y a2 hy => hg a y a2 (List.mem_cons_of_mem _ hy))
        (hg init x b (List.mem_cons_self _ _) hI hgx) heq2

/-- A succeeding `Except` fold over `l1 ++ x :: l2` splits into a
succeeding fold over `l1`, a succeeding step at `x` and a succeeding fold
over `l2`. -/
lemma foldlM_ok_split {α β ε : Type} (g : β → α → Except ε β) :
    ∀ (l1 : List α) (x : α) (l2 : List α) (init out : β),
      List.foldlM g init (l1 ++ x :: l2) = Except.ok out →
      ∃ mid mid2, List.foldlM g init l1 = Except.ok mid ∧ g mid x = Except.ok mid2
        ∧ List.foldlM g mid2 l2 = Except.ok out := by
  intro l1
  induction l1 with
  | nil =>
    intro x l2 init out heq
    rw [List.nil_append, List.foldlM_cons] at heq
    cases hgx : g init x with
    | error e =>
      rw [hgx] at heq
      have h2 : Except.error (α := β) e = Except.ok out := heq
      exact Except.noConfusion h2
    | ok b =>
      rw [hgx] at heq
      exact ⟨init, b, rfl, hgx, heq⟩
  | cons y ys ih =>
    intro x l2 init out heq
    rw [List.cons_append, List.foldlM_cons] at heq
    cases hgy : g init y with
    | error e =>
      rw [hgy] at heq
      have h2 : Except.error (α := β) e = Except.ok out := heq
      exact Except.noConfusion h2
    | ok b =>
      rw [hgy] at heq
      obtain ⟨mid, mid2, h1, h2, h3⟩ := ih x l2 b out heq
      exact ⟨mid, mid2, by rw [List.foldlM_cons, hgy]; exact h1, h2, h3⟩

/-- `unit_step` never removes a present key. -/
lemma unit_step_preserves_has (tar : Tar) (d t k : String) :
    ∀ acc e acc2, unit_step tar d t acc e = Except.ok acc2 →
      assocHas acc k = true → assocHas acc2 k = true := by
  intro acc e acc2 hstep hhas
  simp only [unit_step] at hstep
  cases hl : link_target tar (d ++ "/" ++ t ++ "/" ++ e) with
  | error u =>
    rw [hl] at hstep
    exact Except.noConfusion hstep
  | ok r =>
    rw [hl] at hstep
    have h2 : (if r ≠ "/dev/null" then assocInsert acc e (d ++ "/" ++ t ++ "/" ++ e) else acc)
        = acc2 := Except.ok.inj hstep
    rw [← h2]
    split
    · exact assocHas_insert_of_has acc e _ k hhas
    · exact hhas

/-- An archive with one `multi-user.target.wants` directory whose member
`foo.service` is a symlink to the real unit file
`/usr/lib/systemd/system/foo.service`. -/
def tar_units : Tar :=
  [⟨"/etc/systemd/system/multi-user.target.wants", 0o755, 0, 0, 0, false, "", "", ""⟩,
   ⟨"/etc/systemd/system/multi-user.target.wants/foo.service", 0o777, 0, 0, 0, true,
     "/usr/lib/systemd/system/foo.service", "", ""⟩,
   ⟨"/usr/lib/systemd/system/foo.service", 0o644, 0, 0, 100, false, "", "", ""⟩]

/-- C4 counterexample: in `tar_units`, the mapping records `foo.service`
with the full wants-directory path as value, although its one-hop symlink
resolution is `/usr/lib/systemd/system/foo.service`; the recorded value is
not the resolved unit path the claim describes. (The listing artifact of
the wants directory itself appears under the empty-string key.) -/
theorem c4_value_not_resolved_counterexample :
    read_systemd_enabled_units tar_units = .ok
      [("", "/etc/systemd/system/multi-user.target.wants/"),
       ("foo.service", "/etc/systemd/system/multi-user.target.wants/foo.service")]
    ∧ link_target tar_units "/etc/systemd/system/multi-user.target.wants/foo.service"
        = .ok "/usr/lib/systemd/system/foo.service"
    ∧ ("/etc/systemd/system/multi-user.target.wants/foo.service" : String)
        ≠ "/usr/lib/systemd/system/foo.service" :=
  ⟨rfl, rfl, by decide⟩

/-- The shape every recorded unit pair has: it stems from a member of a
`.target.wants` directory under a search root, its value is the full path
inside that directory, and its one-hop resolution is not the null
device. -/
def unitShape (tar : Tar) (kv : String × String) : Prop :=
  ∃ d t, d ∈ config_dirs
    ∧ t ∈ (list_directory (getnames tar) d).filter (fun e => pyEndsWith e ".target.wants")
    ∧ kv.1 ∈ list_directory (getnames tar) (d ++ "/" ++ t)
    ∧ kv.2 = d ++ "/" ++ t ++ "/" ++ kv.1
    ∧ ∃ r, link_target tar kv.2 = Except.ok r ∧ r ≠ "/dev/null"

/-- C4 amended: in the returned mapping, a `.target.wants` member whose
one-hop symlink target is the null device is not recorded, every member
with a non-null one-hop target is present keyed by its filename, and each
value is the full path of the member inside its wants directory (the one-hop
resolution is used only for the null-device masking test, not as the
stored value). -/
theorem c4_units_value_is_wants_path (tar : Tar) (units : List (String × String))
    (h : read_systemd_enabled_units tar = .ok units) :
    (∀ k v, (k, v) ∈ units →
      ∃ d t, d ∈ config_dirs
        ∧ t ∈ (list_directory (getnames tar) d).filter (fun e => pyEndsWith e ".target.wants")
        ∧ k ∈ list_directory (getnames tar) (d ++ "/" ++ t)
        ∧ v = d ++ "/" ++ t ++ "/" ++ k
        ∧ ∃ r, link_target tar v = .ok r ∧ r ≠ "/dev/null")
    ∧ (∀ d t k, d ∈ config_dirs →
        t ∈ (list_directory (getnames tar) d).filter (fun e => pyEndsWith e ".target.wants") →
        k ∈ list_directory (getnames tar) (d ++ "/" ++ t) →
        (∃ r, link_target tar (d ++ "/" ++ t ++ "/" ++ k) = .ok r ∧ r ≠ "/dev/null") →
        assocHas units k = true) := by
  simp only [read_systemd_enabled_units] at h
  constructor
  · have hP : ∀ kv ∈ units, unitShape tar kv := by
      refine foldlM_ok_invariant _ (fun us => ∀ kv ∈ us, unitShape tar kv)
        config_dirs [] units ?_
        (fun kv hkv => absurd hkv (List.not_mem_nil kv)) h
      intro acc d acc2 hd hI hG
      refine foldlM_ok_invariant _ (fun us => ∀ kv ∈ us, unitShape tar kv)
        _ acc acc2 ?_ hI hG
      intro acc3 t acc4 ht hI3 hT
      refine foldlM_ok_invariant _ (fun us => ∀ kv ∈ us, unitShape tar kv)
        _ acc3 acc4 ?_ hI3 hT
      intro acc5 e acc6 he hI5 hstep
      simp only [unit_step] at hstep
      cases hl : link_target tar (d ++ "/" ++ t ++ "/" ++ e) with
      | error u =>
        rw [hl] at hstep
        exact absurd hstep (fun hh => Except.noConfusion hh)
      | ok r =>
        rw [hl] at hstep
        have h6 : (if r ≠ "/dev/null" then assocInsert acc5 e (d ++ "/" ++ t ++ "/" ++ e)
            else acc5) = acc6 := Except.ok.inj hstep
        rw [← h6]
        split
        · rename_i hr
          intro kv hkv2
          rcases mem_assocInsert hkv2 with hold | hnew
          · exact hI5 kv hold
          · subst hnew
            exact ⟨d, t, hd, ht, he, rfl, r, hl, hr⟩
        · exact hI5
    intro k v hkv
    exact hP (k, v) hkv
  · rintro d t k hd ht hk ⟨r, hlr, hrne⟩
    obtain ⟨D1, D2, hD⟩ := List.append_of_mem hd
    rw [hD] at h
    obtain ⟨mid, mid2, _h1, h2, h3⟩ := foldlM_ok_split _ D1 d D2 [] units h
    obtain ⟨T1, T2, hT⟩ := List.append_of_mem ht
    rw [hT] at h2
    obtain ⟨n1, n2, _g1, g2, g3⟩ := foldlM_ok_split _ T1 t T2 mid mid2 h2
    obtain ⟨M1, M2, hM⟩ := List.append_of_mem hk
    rw [hM] at g2
    obtain ⟨m1, m2, _u1, u2, u3⟩ := foldlM_ok_split _ M1 k M2 n1 n2 g2
    have hm2 : assocHas m2 k = true := by
      simp only [unit_step] at u2
      rw [hlr] at u2
      have h6 : (if r ≠ "/dev/null" then assocInsert m1 k (d ++ "/" ++ t ++ "/" ++ k)
          else m1) = m2 := Except.ok.inj u2
      rw [← h6, if_pos hrne]
      exact assocHas_insert_self m1 k _
    have hn2 : assocHas n2 k = true :=
      foldlM_ok_invariant _ (fun us => assocHas us k = true) M2 m2 n2
        (fun a e a2 _ hI hs => unit_step_preserves_has tar d t k a e a2 hs hI) hm2 u3
    have hmid2 : assocHas mid2 k = true := by
      refine foldlM_ok_invariant _ (fun us => assocHas us k = true) T2 n2 mid2 ?_ hn2 g3
      intro acc t2 acc2 _ hI hT2
      refine foldlM_ok_invariant _ (fun us => assocHas us k = true) _ acc acc2 ?_ hI hT2
      intro a e a2 _ hI2 hs
      exact unit_step_preserves_has tar d t2 k a e a2 hs hI2
    refine foldlM_ok_invariant _ (fun us => assocHas us k = true) D2 mid2 units ?_ hmid2 h3
    intro acc d2 acc2 _ hI hG
    refine foldlM_ok_invariant _ (fun us => assocHas us k = true) _ acc acc2 ?_ hI hG
    intro acc3 t2 acc4 _ hI3 hT2
    refine foldlM_ok_invariant _ (fun us => assocHas us k = true) _ acc3 acc4 ?_ hI3 hT2
    intro a e a2 _ hI2 hs
    exact unit_step_preserves_has tar d2 t2 k a e a2 hs hI2

/-- Witness for C4 amended: in `tar_units`, `foo.service` has a non-null
one-hop target, so it is present in the mapping. -/
theorem c4_units_value_is_wants_path_witness :
    assocHas [("", "/etc/systemd/system/multi-user.target.wants/"),
      ("foo.service", "/etc/systemd/system/multi-user.target.wants/foo.service")]
      "foo.service" = true :=
  (c4_units_value_is_wants_path tar_units
    [("", "/etc/systemd/system/multi-user.target.wants/"),
     ("foo.service", "/etc/systemd/system/multi-user.target.wants/foo.service")] rfl).2
    "/etc/systemd/system" "multi-user.target.wants" "foo.service"
    (by decide) (by decide) (by decide)
    ⟨"/usr/lib/systemd/system/foo.service", rfl, by decide⟩

end ValidateModern
